import Mathlib

/-!
Verification development for the merry-tree interactive particle display.

The embedding below is a shallow Lean model of the TypeScript sources:

* `src/unnamed/part_000` (types): `TreeState`, `AppState`.
* `src/components/HandTracker.tsx`: gesture classification (`analyzeGesture`,
  `onResults`) including the velocity gate.
* App component (second half of `src/components/Sidebar.tsx`): the scene state
  machine (`handleGestureUpdate`, `toggleTreeState`, `handlePhotoClick`,
  `addPhoto`, `removePhoto`, `toggleGesture`) and the angular photo selector
  embedded in the pinch branch.
* `src/components/Scene.tsx` (`TreeParticles`): deterministic particle
  category assignment and the heart rejection sampler.

Modelling conventions, used consistently and noted where they apply:

* JavaScript numbers are modelled as exact rationals (`ℚ`).  Comparisons of a
  square root against a nonnegative constant are modelled by comparing squares
  (`Real.sqrt d < c ↔ d < c ^ 2` for `0 ≤ d`, `0 < c`), keeping every
  definition computable.
* Angles are measured in units of π (a radian value θ is represented by θ/π).
  The selector only rescales, compares and subtracts angles, and the branch
  constants π and 2π become 1 and 2, so the comparison results — hence the
  selected index — are unchanged by this positive rescaling.
* `Math.random()` is modelled by an explicit stream `ℕ → ℚ` of draws consumed
  in call order.
-/

namespace MerryTree

/-- The `TreeState` enum of `src/unnamed/part_000`.  It declares three values
even though only the first two are ever assigned by the application. -/
inductive TreeState where
  | GATHERED
  | SCATTERED
  | FOCUS
deriving DecidableEq, Repr

/-- The gesture labels produced by `analyzeGesture` in `HandTracker.tsx`
(the strings under score quotes in the source: `'None'`, `'Fist'`, `'Open'`,
`'Pinch'`). -/
inductive Gesture where
  | None
  | Fist
  | Open
  | Pinch
deriving DecidableEq, Repr

/-- The slice of the `AppState` interface (`src/unnamed/part_000`) read or
written by the operations modelled here.  `bgmUrl` and `customText` are
omitted: no modelled operation reads them and their updates touch no other
field.  `focusedPhotoIndex` is `number | null` in the source, so it is
modelled as `Option ℤ`. -/
structure AppState where
  treeState : TreeState
  useGestures : Bool
  currentGesture : Gesture
  photos : List String
  focusedPhotoIndex : Option ℤ
deriving DecidableEq, Repr

/-! ## Angular selector (pinch branch of `handleGestureUpdate`, App component)

Angles are in units of π (see the header).  `jsMod` is the JavaScript `%`
operator; for a nonnegative dividend and positive divisor — the only way it is
invoked here, since `pTheta = i * angleStep ≥ 0` — JavaScript's truncating
remainder agrees with the floor-based remainder used below. -/

/-- JavaScript `a % b` for the nonnegative dividends used by the source:
`a - b * ⌊a / b⌋`. -/
def jsMod (a b : ℚ) : ℚ := a - b * ⌊a / b⌋

/-- The angular step `angleStep = (Math.PI * 2) / Math.max(1, photos.length)`
of the pinch branch, in units of π. -/
def angleStep (n : ℕ) : ℚ := 2 / (max 1 n : ℕ)

/-- The angular position `pTheta` of photo slot `i` out of `n`:
`i * angleStep`, reduced by `pTheta % (Math.PI * 2)` as in the source.
In units of π. -/
def slotTheta (n i : ℕ) : ℚ := jsMod ((i : ℚ) * angleStep n) 2

/-- The reduced angular difference computed for slot `i` in the selection
loop: `diff = |targetAngle - pTheta|`, replaced by `2π - diff` when it exceeds
π.  In units of π. -/
def reducedDiff (target : ℚ) (n i : ℕ) : ℚ :=
  if |target - slotTheta n i| > 1 then 2 - |target - slotTheta n i|
  else |target - slotTheta n i|

/-- One iteration of the `prev.photos.forEach` selection loop: the running
pair `(minDiff, closestIndex)` starts at `(Infinity, -1)` — modelled as
`(⊤ : WithTop ℚ, -1)` — and is replaced exactly when `diff < minDiff`. -/
def selStep (d : ℕ → ℚ) (acc : WithTop ℚ × ℤ) (i : ℕ) : WithTop ℚ × ℤ :=
  if (d i : WithTop ℚ) < acc.1 then ((d i : WithTop ℚ), (i : ℤ)) else acc

/-- The whole selection loop over slot indices `0, …, n-1`. -/
def selLoop (d : ℕ → ℚ) (n : ℕ) : WithTop ℚ × ℤ :=
  (List.range n).foldl (selStep d) (⊤, -1)

/-- The `closestIndex` computed by the pinch branch for a camera target angle
(in units of π) and `n` photo slots. -/
def closestIndex (target : ℚ) (n : ℕ) : ℤ :=
  (selLoop (reducedDiff target n) n).2

/-! ## Gesture classifier (`HandTracker.tsx`) -/

/-- One 3D hand landmark (normalized coordinates). -/
structure Pt3 where
  x : ℚ
  y : ℚ
  z : ℚ
deriving DecidableEq, Repr

/-- A detector result for one hand, indexed as the source indexes the
`landmarks` array (positions `0, …, 20`; only `4, 6, 8, 9, 10, 12, 14, 16,
18, 20` are read). -/
def Landmarks : Type := ℕ → Pt3

/-- The velocity-tracking refs of `HandTracker.tsx`: `lastHandPos` (landmark 9
of the previous analyzed sample, or `null`) and `lastAnalysisTime`
(milliseconds; initialized to `0`). -/
structure TrackerState where
  lastHandPos : Option (ℚ × ℚ)
  lastAnalysisTime : ℚ
deriving DecidableEq, Repr

/-- The squared screen-space speed computed by `analyzeGesture`.  The source
computes `speed = sqrt(dx² + dy²) / dt` and later tests `speed > 1.0`; since
both sides are nonnegative (the guard gives `dt > 0`), that test is equivalent
to `speedSq > 1` for `speedSq = (dx² + dy²) / dt²`, which keeps the model
rational.  `speed` stays `0` unless a previous position exists,
`lastAnalysisTime > 0` and `dt > 0`, exactly as in the source. -/
def speedSq (st : TrackerState) (handX handY now : ℚ) : ℚ :=
  match st.lastHandPos with
  | none => 0
  | some (px, py) =>
    if st.lastAnalysisTime > 0 then
      let dt := (now - st.lastAnalysisTime) / 1000
      if dt > 0 then
        ((handX - px) ^ 2 + (handY - py) ^ 2) / dt ^ 2
      else 0
    else 0

/-- Open-finger test of `analyzeGesture`: a finger is open when its tip's `y`
is smaller than its proximal joint's `y` (index 8/6, middle 12/10, ring 16/14,
pinky 20/18). -/
def fingersOpenCount (lm : Landmarks) : ℕ :=
  (([decide ((lm 8).y < (lm 6).y),
     decide ((lm 12).y < (lm 10).y),
     decide ((lm 16).y < (lm 14).y),
     decide ((lm 20).y < (lm 18).y)].filter (fun b => b)).length)

/-- The squared 3D pinch distance between thumb tip (landmark 4) and index
tip (landmark 8).  The source compares `sqrt` of this against `0.06`; the
model compares this against `0.06 ^ 2`, an equivalent test. -/
def pinchDistanceSq (lm : Landmarks) : ℚ :=
  ((lm 8).x - (lm 4).x) ^ 2 + ((lm 8).y - (lm 4).y) ^ 2 + ((lm 8).z - (lm 4).z) ^ 2

/-- The label decision of `analyzeGesture`, in source order: `Pinch` when the
pinch distance is under the `0.06` threshold and the hand is not moving fast
(speed over `1.0`); else `Fist` on zero open fingers; else `Open` on at least
four; else `None`. -/
def decideLabel (distSq : ℚ) (movingFast : Bool) (openCount : ℕ) : Gesture :=
  if distSq < (6/100) ^ 2 ∧ movingFast = false then .Pinch
  else if openCount = 0 then .Fist
  else if openCount ≥ 4 then .Open
  else .None

/-- The `analyzeGesture` function of `HandTracker.tsx` for one landmark set at
wall-clock time `now`: returns the emitted gesture, the updated velocity refs,
and the directional signal `((0.5 - x₉) * 2 * 1.5, (y₉ - 0.5) * 2 * 1.5)`
passed to `onGestureUpdate`. -/
def analyzeGesture (st : TrackerState) (lm : Landmarks) (now : ℚ) :
    Gesture × TrackerState × (ℚ × ℚ) :=
  let handX := (lm 9).x
  let handY := (lm 9).y
  let movingFast : Bool := decide (speedSq st handX handY now > 1)
  let g := decideLabel (pinchDistanceSq lm) movingFast (fingersOpenCount lm)
  (g, ⟨some (handX, handY), now⟩,
    ((1/2 - handX) * 2 * (3/2), (handY - 1/2) * 2 * (3/2)))

/-- The `hands.onResults` callback of `HandTracker.tsx`: with a detected hand
it runs `analyzeGesture`; with no hand it emits `'None'` with no rotation
payload and clears `lastHandPos` (only — `lastAnalysisTime` is untouched). -/
def onResults (st : TrackerState) (sample : Option Landmarks) (now : ℚ) :
    Gesture × Option (ℚ × ℚ) × TrackerState :=
  match sample with
  | some lm =>
    let r := analyzeGesture st lm now
    (r.1, some r.2.2, r.2.1)
  | none => (.None, none, ⟨none, st.lastAnalysisTime⟩)

/-! ## Scene state machine (App component, second half of `Sidebar.tsx`)

`handleGestureUpdate` derives the pinch target angle from the incoming
rotation by `camTheta = rotation.x * 3.0`, `atan2(cos camTheta, sin camTheta)`
normalized into `[0, 2π)`.  That chain is real-valued trigonometry, so the
step function below takes the resulting normalized angle (in units of π) as
the `targetAngle` argument; bridging lemmas relate concrete directional
inputs to their target angle. -/

/-- The `handleGestureUpdate` callback of the App component.  It is a no-op
while `useGestures` is off; otherwise `Fist` gathers and clears the focus,
`Open` scatters and clears the focus, and `Pinch` assigns
`closestIndex` exactly on a rising edge (`prev.currentGesture ≠ 'Pinch'`)
in `SCATTERED` state with a non-empty photo list.  The stored
`currentGesture` always becomes the incoming label. -/
def handleGestureUpdate (s : AppState) (gesture : Gesture) (targetAngle : ℚ) :
    AppState :=
  if s.useGestures = false then s
  else
    let newState : TreeState :=
      match gesture with
      | .Fist => .GATHERED
      | .Open => .SCATTERED
      | _ => s.treeState
    let newFocus : Option ℤ :=
      match gesture with
      | .Fist => none
      | .Open => none
      | .Pinch =>
        if s.currentGesture ≠ .Pinch ∧ s.treeState = .SCATTERED ∧
            0 < s.photos.length then
          some (closestIndex targetAngle s.photos.length)
        else s.focusedPhotoIndex
      | .None => s.focusedPhotoIndex
    { s with treeState := newState, currentGesture := gesture,
             focusedPhotoIndex := newFocus }

/-- `addPhoto`: appends the new photo URL. -/
def addPhoto (s : AppState) (url : String) : AppState :=
  { s with photos := s.photos ++ [url] }

/-- `removePhoto`: keeps every photo whose position differs from `index`
(`photos.filter((_, i) => i !== index)`).  No other field is written. -/
def removePhoto (s : AppState) (index : ℕ) : AppState :=
  { s with photos := (s.photos.enum.filter (fun p => p.1 ≠ index)).map Prod.snd }

/-- `toggleGesture`: flips `useGestures`. -/
def toggleGesture (s : AppState) : AppState :=
  { s with useGestures := !s.useGestures }

/-- `toggleTreeState`: the manual toggle; flips `GATHERED ↔ SCATTERED` and
resets the focus. -/
def toggleTreeState (s : AppState) : AppState :=
  { s with
    treeState := if s.treeState = .GATHERED then .SCATTERED else .GATHERED,
    focusedPhotoIndex := none }

/-- `handlePhotoClick`: mouse selection, permitted only with gestures off and
in `SCATTERED` state; clicking the focused photo deselects it, any other
photo becomes focused. -/
def handlePhotoClick (s : AppState) (index : ℕ) : AppState :=
  if s.useGestures = false ∧ s.treeState = .SCATTERED then
    { s with focusedPhotoIndex :=
        if s.focusedPhotoIndex = some (index : ℤ) then none
        else some (index : ℤ) }
  else s

/-- The events the App component reacts to: classified gestures (with the
derived pinch target angle), the manual tree toggle, photo clicks, photo
additions and removals, and the gesture-enable toggle. -/
inductive Event where
  | gestureEvent (g : Gesture) (targetAngle : ℚ)
  | toggleTree
  | photoClick (index : ℕ)
  | photoAdd (url : String)
  | photoRemove (index : ℕ)
  | gestureToggle

/-- Dispatch of one event to the corresponding App handler. -/
def step (s : AppState) : Event → AppState
  | .gestureEvent g t => handleGestureUpdate s g t
  | .toggleTree => toggleTreeState s
  | .photoClick i => handlePhotoClick s i
  | .photoAdd url => addPhoto s url
  | .photoRemove i => removePhoto s i
  | .gestureToggle => toggleGesture s

/-- The initial `appState` of the App component: `GATHERED`, gestures off,
`currentGesture: 'None'`, the default (empty) photo list, no focus. -/
def initialState : AppState :=
  ⟨.GATHERED, false, .None, [], none⟩

/-- Running an event sequence from the initial state. -/
def run (evs : List Event) : AppState :=
  evs.foldl step initialState

/-! ## Layout engine (`TreeParticles` in `Scene.tsx`) -/

/-- The four particle categories of `TreeParticles` (`'core' | 'structure' |
'ribbon' | 'ornament'`; `structure` is a Lean keyword, hence `struct`). -/
inductive PCategory where
  | core
  | struct
  | ribbon
  | ornament
deriving DecidableEq, Repr

/-- `coreCount = Math.floor(count * 0.15)`. -/
def coreCount (count : ℕ) : ℕ :=
  (⌊(count : ℚ) * (15/100)⌋).toNat

/-- The category (`type`) assigned to particle index `i` of `count`:
indices below `coreCount` are `core`; among the rest, every 30th index is an
`ornament`, every remaining 6th index is a `ribbon`, and the remainder is
`structure`.  No random draw participates in this choice, so it is a pure
function of `(count, i)`. -/
def particleType (count i : ℕ) : PCategory :=
  if i < coreCount count then .core
  else if i % 30 = 0 then .ornament
  else if i % 6 = 0 then .ribbon
  else .struct

/-- The heart implicit-surface polynomial of the scattered-position sampler:
`(x² + 2.25·z² + y² − 1)³ − x²·y³ − 0.1125·z²·y³`; a point is inside the
heart when this is negative. -/
def heartFn (x y z : ℚ) : ℚ :=
  (x ^ 2 + (225/100) * z ^ 2 + y ^ 2 - 1) ^ 3
    - x ^ 2 * y ^ 3 - (1125/10000) * z ^ 2 * y ^ 3

/-- Attempt number `k` of the rejection sampler draws three consecutive
`Math.random()` values and maps each from `[0,1)` into the bounding cube
`[-1.5, 1.5)`: `(Math.random() * 3) - 1.5`. -/
def drawPoint (rand : ℕ → ℚ) (k : ℕ) : ℚ × ℚ × ℚ :=
  (rand (3 * k) * 3 - 3/2, rand (3 * k + 1) * 3 - 3/2, rand (3 * k + 2) * 3 - 3/2)

/-- The `while (!done && attempts < 100)` rejection loop, with `attempts` the
next attempt number and `fuel = 100 - attempts` the remaining attempts: accept
the drawn point when `heartFn < 0`, otherwise retry; when the attempts run out
the source leaves `hx = hy = hz = 0`, the origin fallback. -/
def heartRejectAux (rand : ℕ → ℚ) : ℕ → ℕ → ℚ × ℚ × ℚ
  | _, 0 => (0, 0, 0)
  | attempts, fuel + 1 =>
    if heartFn (drawPoint rand attempts).1 (drawPoint rand attempts).2.1
        (drawPoint rand attempts).2.2 < 0 then
      drawPoint rand attempts
    else heartRejectAux rand (attempts + 1) fuel

/-- The pre-scaling scattered point of a heart-member particle: the rejection
loop started at attempt `0` with the full budget of `100` attempts. -/
def heartReject (rand : ℕ → ℚ) : ℚ × ℚ × ℚ :=
  heartRejectAux rand 0 100

/-! ## Concrete scenario data and invariants used by the verification -/

/-- The data-model invariant: a non-null focused photo index requires the
scattered state. -/
def FocusInv (s : AppState) : Prop :=
  s.focusedPhotoIndex ≠ none → s.treeState = .SCATTERED

/-- A four-photo state focused on the last photo (index 3), gestures off. -/
def c1State : AppState :=
  ⟨.SCATTERED, false, .None, ["p0", "p1", "p2", "p3"], some 3⟩

/-- A ten-photo scattered state with gestures on and no pinch held. -/
def c2State : AppState :=
  ⟨.SCATTERED, true, .None,
    ["p0", "p1", "p2", "p3", "p4", "p5", "p6", "p7", "p8", "p9"], none⟩

/-- A three-photo scattered state with gestures on and no pinch held. -/
def c3State : AppState := ⟨.SCATTERED, true, .None, ["p0", "p1", "p2"], none⟩

/-- The label sequence of the rising-edge scenario. -/
def c3Labels : List Gesture := [.None, .Pinch, .Pinch, .Fist, .Pinch]

/-- Folding a label sequence through `handleGestureUpdate` with a fixed
target angle. -/
def gestureFold (s : AppState) (labels : List Gesture) (t : ℚ) : AppState :=
  labels.foldl (fun a g => handleGestureUpdate a g t) s

/-- A concrete open-hand landmark sample: all four non-thumb fingertips above
their proximal joints (smaller `y`), thumb tip far from the index tip. -/
def c4Lm : Landmarks := fun i =>
  if i = 4 then ⟨1, 1, 0⟩
  else if i = 8 ∨ i = 12 ∨ i = 16 ∨ i = 20 then ⟨0, 0, 0⟩
  else ⟨0, 1, 0⟩

/-! ## Lemmas about the selection loop -/

theorem selLoop_zero (d : ℕ → ℚ) : selLoop d 0 = (⊤, -1) := rfl

theorem selLoop_succ (d : ℕ → ℚ) (n : ℕ) :
    selLoop d (n + 1) = selStep d (selLoop d n) n := by
  simp [selLoop, List.range_succ]

/-- The selection loop over a non-empty index range computes the least argmin
of `d`: the returned pair holds the difference of a slot `r` that minimizes
`d` over `0, …, n-1` and is strictly better than every earlier slot. -/
theorem selLoop_spec (d : ℕ → ℚ) (n : ℕ) (hn : 1 ≤ n) :
    ∃ r : ℕ, selLoop d n = ((d r : WithTop ℚ), (r : ℤ)) ∧ r < n ∧
      (∀ i, i < n → d r ≤ d i) ∧ (∀ i, i < r → d r < d i) := by
  induction n with
  | zero => omega
  | succ m ih =>
    rw [selLoop_succ]
    by_cases hm : 1 ≤ m
    · obtain ⟨r, hEq, hrlt, hmin, hleast⟩ := ih hm
      rw [hEq]
      unfold selStep
      by_cases hc : (d m : WithTop ℚ) < (d r : WithTop ℚ)
      · rw [if_pos hc]
        have hdm : d m < d r := by exact_mod_cast hc
        refine ⟨m, rfl, Nat.lt_succ_self m, ?_, ?_⟩
        · intro i hi
          rcases Nat.lt_succ_iff_lt_or_eq.mp hi with h | h
          · exact le_of_lt (lt_of_lt_of_le hdm (hmin i h))
          · simp [h]
        · intro i hi
          exact lt_of_lt_of_le hdm (hmin i hi)
      · rw [if_neg hc]
        have hdm : d r ≤ d m := by
          by_contra hlt
          exact hc (by exact_mod_cast lt_of_not_le hlt)
        refine ⟨r, rfl, Nat.lt_succ_of_lt hrlt, ?_, hleast⟩
        intro i hi
        rcases Nat.lt_succ_iff_lt_or_eq.mp hi with h | h
        · exact hmin i h
        · simpa [h] using hdm
    · have hm0 : m = 0 := by omega
      subst hm0
      rw [selLoop_zero]
      unfold selStep
      rw [if_pos (by exact WithTop.coe_lt_top (d 0))]
      refine ⟨0, rfl, Nat.lt_succ_self 0, ?_, ?_⟩
      · intro i hi
        have h0 : i = 0 := by omega
        simp [h0]
      · intro i hi
        omega

/-- Closed form of the slot angle: for `i < n` the `% 2π` reduction is the
identity and slot `i` sits at angle `i · (2π/n)` — `2i/n` in units of π. -/
theorem slotTheta_eq (n i : ℕ) (hn : 1 ≤ n) (hi : i < n) :
    slotTheta n i = 2 * i / n := by
  have hmax : (max 1 n : ℕ) = n := by omega
  have hn0 : (0 : ℚ) < (n : ℚ) := by exact_mod_cast hn
  have hfrac : ((i : ℚ) * (2 / (n : ℚ))) / 2 = (i : ℚ) / (n : ℚ) := by
    field_simp
    ring
  have hfloor : ⌊((i : ℚ) * (2 / (n : ℚ))) / 2⌋ = 0 := by
    rw [hfrac]
    rw [Int.floor_eq_zero_iff]
    constructor
    · positivity
    · rw [div_lt_one hn0]
      exact_mod_cast hi
  unfold slotTheta jsMod angleStep
  rw [hmax, hfloor]
  ring

theorem slotTheta_nonneg (n i : ℕ) (hn : 1 ≤ n) (hi : i < n) :
    0 ≤ slotTheta n i := by
  rw [slotTheta_eq n i hn hi]
  positivity

theorem slotTheta_lt_two (n i : ℕ) (hn : 1 ≤ n) (hi : i < n) :
    slotTheta n i < 2 := by
  have hn0 : (0 : ℚ) < (n : ℚ) := by exact_mod_cast hn
  rw [slotTheta_eq n i hn hi, div_lt_iff₀ hn0]
  have : (i : ℚ) < (n : ℚ) := by exact_mod_cast hi
  nlinarith

/-- Distinct slots of one layout sit at distinct angles. -/
theorem slotTheta_injOn (n i j : ℕ) (hn : 1 ≤ n) (hi : i < n) (hj : j < n)
    (h : slotTheta n i = slotTheta n j) : i = j := by
  rw [slotTheta_eq n i hn hi, slotTheta_eq n j hn hj] at h
  have hn0 : (0 : ℚ) < (n : ℚ) := by exact_mod_cast hn
  field_simp at h
  exact_mod_cast h

theorem reducedDiff_nonneg (target : ℚ) (n i : ℕ) (hn : 1 ≤ n) (hi : i < n)
    (ht0 : 0 ≤ target) (ht2 : target < 2) : 0 ≤ reducedDiff target n i := by
  have h1 := slotTheta_nonneg n i hn hi
  have h2 := slotTheta_lt_two n i hn hi
  unfold reducedDiff
  have hdlt : |target - slotTheta n i| < 2 := by
    rw [abs_lt]
    constructor <;> linarith
  split
  · linarith
  · positivity

/-- For angles normalized into `[0, 2π)` the reduced difference vanishes
exactly on the slot whose angle equals the camera angle. -/
theorem reducedDiff_eq_zero_iff (target : ℚ) (n i : ℕ) (hn : 1 ≤ n) (hi : i < n)
    (ht0 : 0 ≤ target) (ht2 : target < 2) :
    reducedDiff target n i = 0 ↔ slotTheta n i = target := by
  have h1 := slotTheta_nonneg n i hn hi
  have h2 := slotTheta_lt_two n i hn hi
  unfold reducedDiff
  have hdlt : |target - slotTheta n i| < 2 := by
    rw [abs_lt]
    constructor <;> linarith
  split
  · next hgt =>
    constructor
    · intro h; linarith
    · intro h
      rw [h] at hgt
      simp at hgt
      linarith
  · rw [abs_eq_zero, sub_eq_zero]
    exact ⟨fun h => h.symm, fun h => h.symm⟩

/-- `closestIndex` on a non-empty photo list returns the least index
minimizing the reduced angular difference. -/
theorem closestIndex_spec (target : ℚ) (n : ℕ) (hn : 1 ≤ n) :
    ∃ r : ℕ, closestIndex target n = (r : ℤ) ∧ r < n ∧
      (∀ i, i < n → reducedDiff target n r ≤ reducedDiff target n i) ∧
      (∀ i, i < r → reducedDiff target n r < reducedDiff target n i) := by
  obtain ⟨r, hEq, hrlt, hmin, hleast⟩ := selLoop_spec (reducedDiff target n) n hn
  exact ⟨r, by rw [closestIndex, hEq], hrlt, hmin, hleast⟩

/-- A camera angle exactly at slot `k`'s angle selects `k`. -/
theorem closestIndex_at_slot (target : ℚ) (n k : ℕ) (hn : 1 ≤ n) (hk : k < n)
    (hT : target = slotTheta n k) : closestIndex target n = (k : ℤ) := by
  have ht0 : 0 ≤ target := hT ▸ slotTheta_nonneg n k hn hk
  have ht2 : target < 2 := hT ▸ slotTheta_lt_two n k hn hk
  obtain ⟨r, hEq, hrlt, hmin, hleast⟩ := closestIndex_spec target n hn
  have hdk : reducedDiff target n k = 0 := by
    rw [reducedDiff_eq_zero_iff target n k hn hk ht0 ht2]
    exact hT.symm
  have hdr0 : reducedDiff target n r = 0 := by
    have hle := hmin k hk
    have hge := reducedDiff_nonneg target n r hn hrlt ht0 ht2
    linarith [hdk ▸ hle]
  have hslot : slotTheta n r = target :=
    (reducedDiff_eq_zero_iff target n r hn hrlt ht0 ht2).mp hdr0
  have hrk : r = k := slotTheta_injOn n r k hn hrlt hk (by rw [hslot, hT])
  rw [hEq, hrk]


/-! ## Unfolding lemmas for the gesture handler -/

theorem handleGestureUpdate_disabled (s : AppState) (g : Gesture) (t : ℚ)
    (h : s.useGestures = false) : handleGestureUpdate s g t = s := by
  unfold handleGestureUpdate
  rw [if_pos h]

theorem handleGestureUpdate_enabled_Fist (s : AppState) (t : ℚ)
    (h : s.useGestures = true) :
    handleGestureUpdate s .Fist t =
      { s with treeState := .GATHERED, currentGesture := .Fist,
               focusedPhotoIndex := none } := by
  unfold handleGestureUpdate
  rw [if_neg (by simp [h])]

theorem handleGestureUpdate_enabled_Open (s : AppState) (t : ℚ)
    (h : s.useGestures = true) :
    handleGestureUpdate s .Open t =
      { s with treeState := .SCATTERED, currentGesture := .Open,
               focusedPhotoIndex := none } := by
  unfold handleGestureUpdate
  rw [if_neg (by simp [h])]

theorem handleGestureUpdate_enabled_None (s : AppState) (t : ℚ)
    (h : s.useGestures = true) :
    handleGestureUpdate s .None t = { s with currentGesture := .None } := by
  unfold handleGestureUpdate
  rw [if_neg (by simp [h])]

theorem handleGestureUpdate_enabled_Pinch (s : AppState) (t : ℚ)
    (h : s.useGestures = true) :
    handleGestureUpdate s .Pinch t =
      { s with currentGesture := .Pinch,
               focusedPhotoIndex :=
                 if s.currentGesture ≠ .Pinch ∧ s.treeState = .SCATTERED ∧
                     0 < s.photos.length then
                   some (closestIndex t s.photos.length)
                 else s.focusedPhotoIndex } := by
  unfold handleGestureUpdate
  rw [if_neg (by simp [h])]

/-! ## Concrete selector evaluations -/

/-- With ten photo slots and target angle π/2 (`1/2` in units of π), slots 2
(at 2π/5) and 3 (at 3π/5) tie at reduced distance π/10 and the strict-`<`
update keeps the first-encountered index, 2. -/
theorem closestIndex_half_ten : closestIndex (1/2) 10 = 2 := by
  norm_num [closestIndex, selLoop, selStep, reducedDiff, slotTheta, jsMod,
    angleStep, List.range_succ, abs_eq_max_neg, max_def]

/-- With three photo slots and target angle `0`, slot 0 sits exactly at the
target and is selected. -/
theorem closestIndex_zero_three : closestIndex 0 3 = 0 := by
  norm_num [closestIndex, selLoop, selStep, reducedDiff, slotTheta, jsMod,
    angleStep, List.range_succ, abs_eq_max_neg, max_def]

/-- The full state trace of the label scenario `[None, Pinch, Pinch, Fist,
Pinch]` from `c3State` at target angle `0`: the position-1 pinch is a rising
edge in `SCATTERED` and selects photo 0; the position-3 `Fist` gathers and
clears the focus; the position-4 pinch is again a rising edge (the stored
label is `Fist`) but arrives in `GATHERED`, so no selection fires. -/
theorem c3_trace :
    gestureFold c3State (c3Labels.take 2) 0
      = ⟨.SCATTERED, true, .Pinch, ["p0", "p1", "p2"], some 0⟩ ∧
    gestureFold c3State (c3Labels.take 4) 0
      = ⟨.GATHERED, true, .Fist, ["p0", "p1", "p2"], none⟩ ∧
    gestureFold c3State c3Labels 0
      = ⟨.GATHERED, true, .Pinch, ["p0", "p1", "p2"], none⟩ := by
  have e1 : handleGestureUpdate c3State .None 0 = c3State := by
    rw [handleGestureUpdate_enabled_None c3State 0 rfl]
    rfl
  have e2 : handleGestureUpdate c3State .Pinch 0
      = ⟨.SCATTERED, true, .Pinch, ["p0", "p1", "p2"], some 0⟩ := by
    rw [handleGestureUpdate_enabled_Pinch c3State 0 rfl]
    rw [if_pos ⟨by decide, rfl, by decide⟩]
    have hl : c3State.photos.length = 3 := rfl
    rw [hl, closestIndex_zero_three]
    rfl
  have e3 : handleGestureUpdate
      (⟨.SCATTERED, true, .Pinch, ["p0", "p1", "p2"], some 0⟩ : AppState)
      .Pinch 0
      = ⟨.SCATTERED, true, .Pinch, ["p0", "p1", "p2"], some 0⟩ := by
    rw [handleGestureUpdate_enabled_Pinch _ 0 rfl]
    rw [if_neg (by decide)]
  have e4 : handleGestureUpdate
      (⟨.SCATTERED, true, .Pinch, ["p0", "p1", "p2"], some 0⟩ : AppState)
      .Fist 0
      = ⟨.GATHERED, true, .Fist, ["p0", "p1", "p2"], none⟩ := by
    rw [handleGestureUpdate_enabled_Fist _ 0 rfl]
  have e5 : handleGestureUpdate
      (⟨.GATHERED, true, .Fist, ["p0", "p1", "p2"], none⟩ : AppState)
      .Pinch 0
      = ⟨.GATHERED, true, .Pinch, ["p0", "p1", "p2"], none⟩ := by
    rw [handleGestureUpdate_enabled_Pinch _ 0 rfl]
    rw [if_neg (by decide)]
  refine ⟨?_, ?_, ?_⟩
  · show handleGestureUpdate (handleGestureUpdate c3State .None 0) .Pinch 0 = _
    rw [e1, e2]
  · show handleGestureUpdate (handleGestureUpdate (handleGestureUpdate
      (handleGestureUpdate c3State .None 0) .Pinch 0) .Pinch 0) .Fist 0 = _
    rw [e1, e2, e3, e4]
  · show handleGestureUpdate (handleGestureUpdate (handleGestureUpdate
      (handleGestureUpdate (handleGestureUpdate c3State .None 0) .Pinch 0)
      .Pinch 0) .Fist 0) .Pinch 0 = _
    rw [e1, e2, e3, e4, e5]

/-! ## Step lemmas for reachability -/

theorem step_preserves_GS (s : AppState) (e : Event)
    (h : s.treeState = .GATHERED ∨ s.treeState = .SCATTERED) :
    (step s e).treeState = .GATHERED ∨ (step s e).treeState = .SCATTERED := by
  cases e with
  | gestureEvent g t =>
    simp only [step]
    cases hu : s.useGestures with
    | false => rw [handleGestureUpdate_disabled s g t hu]; exact h
    | true =>
      cases g with
      | Fist => rw [handleGestureUpdate_enabled_Fist s t hu]; exact Or.inl rfl
      | Open => rw [handleGestureUpdate_enabled_Open s t hu]; exact Or.inr rfl
      | None => rw [handleGestureUpdate_enabled_None s t hu]; exact h
      | Pinch => rw [handleGestureUpdate_enabled_Pinch s t hu]; exact h
  | toggleTree =>
    simp only [step]
    unfold toggleTreeState
    split
    · exact Or.inr rfl
    · exact Or.inl rfl
  | photoClick i =>
    simp only [step]
    unfold handlePhotoClick
    split
    · exact h
    · exact h
  | photoAdd url => exact h
  | photoRemove i => exact h
  | gestureToggle => exact h

/-! ## Lemmas about the heart rejection sampler -/

theorem heartRejectAux_spec (rand : ℕ → ℚ) (attempts fuel : ℕ) :
    heartFn (heartRejectAux rand attempts fuel).1
        (heartRejectAux rand attempts fuel).2.1
        (heartRejectAux rand attempts fuel).2.2 < 0 ∨
    heartRejectAux rand attempts fuel = (0, 0, 0) := by
  induction fuel generalizing attempts with
  | zero => exact Or.inr rfl
  | succ f ih =>
    unfold heartRejectAux
    split
    · next h => exact Or.inl h
    · exact ih (attempts + 1)

theorem heartRejectAux_congr (rand rand2 : ℕ → ℚ) (attempts fuel : ℕ)
    (h : ∀ k, k < 3 * (attempts + fuel) → rand k = rand2 k) :
    heartRejectAux rand attempts fuel = heartRejectAux rand2 attempts fuel := by
  induction fuel generalizing attempts with
  | zero => rfl
  | succ f ih =>
    have hdraw : drawPoint rand attempts = drawPoint rand2 attempts := by
      unfold drawPoint
      rw [h _ (by omega), h _ (by omega), h _ (by omega)]
    unfold heartRejectAux
    rw [hdraw]
    split
    · rfl
    · exact ih (attempts + 1) (fun k hk => h k (by omega))

/-- Length of an initial-segment filter over an index range. -/
theorem filter_range_lt_length (c m : ℕ) (h : c ≤ m) :
    ((List.range m).filter (fun j => decide (j < c))).length = c := by
  induction m with
  | zero =>
    have hc : c = 0 := by omega
    simp [hc]
  | succ k ih =>
    rw [List.range_succ, List.filter_append, List.length_append]
    by_cases hc : c ≤ k
    · rw [ih hc]
      have hk : ¬ (k < c) := by omega
      simp [hk]
    · have hall : (List.range k).filter (fun j => decide (j < c))
          = List.range k := by
        rw [List.filter_eq_self]
        intro a ha
        have := List.mem_range.mp ha
        simp
        omega
      rw [hall]
      have hk : k < c := by omega
      simp [hk]
      omega

/-! ## Claim theorems -/

/-- C1 (code bug): the spec requires `focusedIndex` to be invalidated when the
referenced photo is removed, but `removePhoto` only filters the photo list: in
a four-photo state focused on index 3, removing photo 3 shrinks the list to
three photos while `focusedPhotoIndex` stays `some 3` — a dangling index, not
`none`. -/
theorem c1_removePhoto_keeps_dangling_focus :
    (removePhoto c1State 3).photos = ["p0", "p1", "p2"] ∧
    (removePhoto c1State 3).focusedPhotoIndex = some 3 := by
  constructor
  · rfl
  · rfl

/-- C2 counterexample: with directional `{x:0, y:0}` the code computes
`camTheta = 0 · 3 = 0`, camera vector `(sin 0, cos 0)` and target angle
`atan2(cos 0, sin 0) = arg(0 + 1·i) = π/2` — not `0`; at π/2 (`1/2` in units
of π) the ten-slot selector returns index `2`, not the claimed `0`. -/
theorem c2_counterexample :
    Complex.arg ⟨Real.sin (0 * 3), Real.cos (0 * 3)⟩ = Real.pi / 2 ∧
    Real.pi / 2 = ((1/2 : ℚ) : ℝ) * Real.pi ∧
    (handleGestureUpdate c2State .Pinch (1/2)).focusedPhotoIndex = some 2 ∧
    ¬ (handleGestureUpdate c2State .Pinch (1/2)).focusedPhotoIndex = some 0 := by
  have harg : Complex.arg ⟨Real.sin (0 * 3), Real.cos (0 * 3)⟩ = Real.pi / 2 := by
    have h0 : (0 : ℝ) * 3 = 0 := by ring
    rw [h0, Real.sin_zero, Real.cos_zero]
    have hI : (⟨0, 1⟩ : ℂ) = Complex.I := rfl
    rw [hI, Complex.arg_I]
  have hmain : (handleGestureUpdate c2State .Pinch (1/2)).focusedPhotoIndex
      = some 2 := by
    rw [handleGestureUpdate_enabled_Pinch c2State (1/2) rfl]
    simp only
    rw [if_pos ⟨by simp [c2State], rfl, by simp [c2State]⟩]
    have hlen : c2State.photos.length = 10 := rfl
    rw [hlen, closestIndex_half_ten]
  refine ⟨harg, by push_cast; ring, hmain, by rw [hmain]; simp⟩

/-- C2 (amended): with exactly 10 photos, state `SCATTERED`, and directional
signal `{x:0, y:0}`, a rising-edge pinch sets `focusedIndex` to 2: the code's
target angle for that directional is `atan2(cos 0, sin 0) = π/2`, slots 2 and
3 tie at reduced distance π/10, and the strict-minimum update keeps the
first-encountered index 2.  The state stays `SCATTERED`. -/
theorem c2_amended (s : AppState) (hu : s.useGestures = true)
    (hg : s.currentGesture ≠ .Pinch) (hst : s.treeState = .SCATTERED)
    (hph : s.photos.length = 10) :
    (handleGestureUpdate s .Pinch (1/2)).focusedPhotoIndex = some 2 ∧
    (handleGestureUpdate s .Pinch (1/2)).treeState = .SCATTERED := by
  rw [handleGestureUpdate_enabled_Pinch s (1/2) hu]
  refine ⟨?_, hst⟩
  simp only
  rw [if_pos ⟨hg, hst, by omega⟩, hph, closestIndex_half_ten]

/-- Witness for C2's amended theorem at the concrete ten-photo state. -/
theorem c2_witness :
    (handleGestureUpdate c2State .Pinch (1/2)).focusedPhotoIndex = some 2 ∧
    (handleGestureUpdate c2State .Pinch (1/2)).treeState = .SCATTERED :=
  c2_amended c2State rfl (by decide) rfl rfl

/-- C3 counterexample: running `[None, Pinch, Pinch, Fist, Pinch]` from a
scattered three-photo state, the position-1 pinch selects photo 0, but after
the position-3 `Fist` (stored label `Fist`, state `GATHERED`) the position-4
pinch — though a rising edge — fires no selection: the final focus is `none`,
contradicting the claim that selection fires at position 4. -/
theorem c3_counterexample :
    (gestureFold c3State (c3Labels.take 2) 0).focusedPhotoIndex = some 0 ∧
    (gestureFold c3State (c3Labels.take 4) 0).currentGesture = .Fist ∧
    (gestureFold c3State (c3Labels.take 4) 0).treeState = .GATHERED ∧
    (gestureFold c3State (c3Labels.take 4) 0).focusedPhotoIndex = none ∧
    (gestureFold c3State c3Labels 0).focusedPhotoIndex = none := by
  obtain ⟨t2, t4, t5⟩ := c3_trace
  rw [t2, t4, t5]
  exact ⟨rfl, rfl, rfl, rfl, rfl⟩

/-- C3 (amended): a pinch assigns `focusedIndex := closestIndex` exactly when
it is a rising edge (stored label ≠ `Pinch`) in state `SCATTERED` with a
non-empty photo list, leaving `treeState` unchanged; in every other pinch
condition both `treeState` and `focusedPhotoIndex` are unchanged.  For the
label sequence `[None, Pinch, Pinch, Fist, Pinch]` the rising edges are at
positions 1 and 4, but selection fires only at position 1 — the `Fist` at
position 3 moves the state to `GATHERED`, so the position-4 edge selects
nothing. -/
theorem c3_pinch_gating (s : AppState) (t : ℚ) (hu : s.useGestures = true) :
    ((s.currentGesture ≠ .Pinch ∧ s.treeState = .SCATTERED ∧
        0 < s.photos.length) →
      (handleGestureUpdate s .Pinch t).focusedPhotoIndex
        = some (closestIndex t s.photos.length)) ∧
    (¬(s.currentGesture ≠ .Pinch ∧ s.treeState = .SCATTERED ∧
        0 < s.photos.length) →
      (handleGestureUpdate s .Pinch t).focusedPhotoIndex
        = s.focusedPhotoIndex) ∧
    (handleGestureUpdate s .Pinch t).treeState = s.treeState ∧
    (gestureFold c3State (c3Labels.take 2) 0).focusedPhotoIndex = some 0 ∧
    (gestureFold c3State (c3Labels.take 4) 0).currentGesture = .Fist ∧
    (gestureFold c3State c3Labels 0).focusedPhotoIndex = none := by
  obtain ⟨t2, t4, t5⟩ := c3_trace
  rw [handleGestureUpdate_enabled_Pinch s t hu]
  refine ⟨?_, ?_, rfl, by rw [t2], by rw [t4], by rw [t5]⟩
  · intro hc
    simp only
    rw [if_pos hc]
  · intro hc
    simp only
    rw [if_neg hc]

/-- Witness for C3's amended theorem at the concrete three-photo state. -/
theorem c3_witness :
    (handleGestureUpdate c3State .Pinch 0).treeState = c3State.treeState :=
  (c3_pinch_gating c3State 0 rfl).2.2.1

/-- C4: the classifier decides the label in priority order — `Pinch` when the
pinch distance is under the threshold and the hand is not moving fast, else
`Fist` on zero open fingers, else `Open` on at least four, else `None`; in
particular four open fingers with pinch distance at or above the threshold
give `Open`, and zero open fingers with distance at or above the threshold
give `Fist`. -/
theorem c4_classifier_priority (st : TrackerState) (lm : Landmarks) (now : ℚ) :
    ((pinchDistanceSq lm < (6/100) ^ 2 ∧
        ¬ speedSq st (lm 9).x (lm 9).y now > 1) →
      (analyzeGesture st lm now).1 = .Pinch) ∧
    (¬(pinchDistanceSq lm < (6/100) ^ 2 ∧
        ¬ speedSq st (lm 9).x (lm 9).y now > 1) →
      (fingersOpenCount lm = 0 → (analyzeGesture st lm now).1 = .Fist) ∧
      (fingersOpenCount lm ≠ 0 → 4 ≤ fingersOpenCount lm →
        (analyzeGesture st lm now).1 = .Open) ∧
      (fingersOpenCount lm ≠ 0 → fingersOpenCount lm < 4 →
        (analyzeGesture st lm now).1 = .None)) ∧
    ((6/100) ^ 2 ≤ pinchDistanceSq lm → 4 ≤ fingersOpenCount lm →
      (analyzeGesture st lm now).1 = .Open) ∧
    ((6/100) ^ 2 ≤ pinchDistanceSq lm → fingersOpenCount lm = 0 →
      (analyzeGesture st lm now).1 = .Fist) := by
  have hval : (analyzeGesture st lm now).1
      = decideLabel (pinchDistanceSq lm)
          (decide (speedSq st (lm 9).x (lm 9).y now > 1))
          (fingersOpenCount lm) := rfl
  refine ⟨?_, ?_, ?_, ?_⟩
  · rintro ⟨hd, hm⟩
    rw [hval]
    unfold decideLabel
    rw [if_pos ⟨hd, decide_eq_false hm⟩]
  · intro hnot
    have hcond : ¬(pinchDistanceSq lm < (6/100) ^ 2 ∧
        (decide (speedSq st (lm 9).x (lm 9).y now > 1)) = false) := by
      rintro ⟨h1, h2⟩
      exact hnot ⟨h1, of_decide_eq_false h2⟩
    refine ⟨?_, ?_, ?_⟩
    · intro h0
      rw [hval]
      unfold decideLabel
      rw [if_neg hcond, if_pos h0]
    · intro hne h4
      rw [hval]
      unfold decideLabel
      rw [if_neg hcond, if_neg hne, if_pos h4]
    · intro hne hlt
      rw [hval]
      unfold decideLabel
      rw [if_neg hcond, if_neg hne, if_neg (by omega)]
  · intro hge h4
    rw [hval]
    unfold decideLabel
    rw [if_neg (fun hc => absurd hc.1 (not_lt.mpr hge)),
      if_neg (by omega), if_pos h4]
  · intro hge h0
    rw [hval]
    unfold decideLabel
    rw [if_neg (fun hc => absurd hc.1 (not_lt.mpr hge)), if_pos h0]

/-- Witness for C4 at a concrete open-hand sample: four open fingers and a
pinch distance above the threshold yield `Open`. -/
theorem c4_witness : (analyzeGesture ⟨none, 0⟩ c4Lm 0).1 = Gesture.Open := by
  have h1 : (6/100 : ℚ) ^ 2 ≤ pinchDistanceSq c4Lm := by
    norm_num [pinchDistanceSq, c4Lm]
  have h2 : 4 ≤ fingersOpenCount c4Lm := by
    norm_num [fingersOpenCount, c4Lm]
  exact (c4_classifier_priority ⟨none, 0⟩ c4Lm 0).2.2.1 h1 h2

/-- C5: the invariant "a non-none `focusedIndex` only while `SCATTERED`" is
preserved by the gesture handler (all labels), the manual toggle and the
manual photo click; moreover whenever the gesture handler or the toggle lands
in `GATHERED`, the focus is `none`, and a photo click never changes the tree
state. -/
theorem c5_focus_invariant (s : AppState) (h : FocusInv s) :
    (∀ g t, FocusInv (handleGestureUpdate s g t)) ∧
    FocusInv (toggleTreeState s) ∧
    (∀ i, FocusInv (handlePhotoClick s i)) ∧
    (∀ g t, (handleGestureUpdate s g t).treeState = .GATHERED →
        (handleGestureUpdate s g t).focusedPhotoIndex = none) ∧
    ((toggleTreeState s).treeState = .GATHERED →
        (toggleTreeState s).focusedPhotoIndex = none) ∧
    (∀ i, (handlePhotoClick s i).treeState = s.treeState) := by
  refine ⟨?_, ?_, ?_, ?_, ?_, ?_⟩
  · intro g t
    cases hu : s.useGestures with
    | false => rw [handleGestureUpdate_disabled s g t hu]; exact h
    | true =>
      cases g with
      | Fist =>
        rw [handleGestureUpdate_enabled_Fist s t hu]
        intro hne
        simp at hne
      | Open =>
        rw [handleGestureUpdate_enabled_Open s t hu]
        intro hne
        rfl
      | None =>
        rw [handleGestureUpdate_enabled_None s t hu]
        intro hne
        exact h hne
      | Pinch =>
        rw [handleGestureUpdate_enabled_Pinch s t hu]
        intro hne
        simp only at hne ⊢
        split at hne
        · next hcond => exact hcond.2.1
        · exact h hne
  · intro hne
    simp [toggleTreeState] at hne
  · intro i
    unfold handlePhotoClick
    split
    · next hcond =>
      intro _
      exact hcond.2
    · exact h
  · intro g t
    cases hu : s.useGestures with
    | false =>
      rw [handleGestureUpdate_disabled s g t hu]
      intro hG
      by_contra hne
      have hs := h hne
      rw [hG] at hs
      exact absurd hs (by simp)
    | true =>
      cases g with
      | Fist =>
        rw [handleGestureUpdate_enabled_Fist s t hu]
        intro _
        rfl
      | Open =>
        rw [handleGestureUpdate_enabled_Open s t hu]
        intro hG
        simp at hG
      | None =>
        rw [handleGestureUpdate_enabled_None s t hu]
        intro hG
        simp only at hG ⊢
        by_contra hne
        have hs := h hne
        rw [hG] at hs
        exact absurd hs (by simp)
      | Pinch =>
        rw [handleGestureUpdate_enabled_Pinch s t hu]
        intro hG
        simp only at hG ⊢
        split
        · next hcond =>
          rw [hG] at hcond
          exact absurd hcond.2.1 (by simp)
        · by_contra hne
          have hs := h hne
          rw [hG] at hs
          exact absurd hs (by simp)
  · intro _
    simp [toggleTreeState]
  · intro i
    unfold handlePhotoClick
    split
    · rfl
    · rfl

/-- Witness for C5 at the initial state (which satisfies the invariant). -/
theorem c5_witness : FocusInv (toggleTreeState initialState) :=
  (c5_focus_invariant initialState (fun hne => absurd rfl hne)).2.1

/-- C6: on a non-empty list of `n` evenly spaced slots and a camera angle
normalized into `[0, 2π)` (`[0, 2)` in units of π), the selector returns a
valid index that minimizes the shorter-arc angular difference, is strictly
better than every earlier index (so exact ties resolve to the
first-encountered slot), and equals `k` whenever the camera angle is exactly
slot `k`'s angle. -/
theorem c6_selector_correct (target : ℚ) (n : ℕ) (hn : 1 ≤ n)
    (ht0 : 0 ≤ target) (ht2 : target < 2) :
    ∃ r : ℕ, closestIndex target n = (r : ℤ) ∧ r < n ∧
      (∀ i, i < n → reducedDiff target n r ≤ reducedDiff target n i) ∧
      (∀ i, i < r → reducedDiff target n r < reducedDiff target n i) ∧
      (∀ k, k < n → target = slotTheta n k → r = k) := by
  obtain ⟨r, h1, h2, h3, h4⟩ := closestIndex_spec target n hn
  refine ⟨r, h1, h2, h3, h4, ?_⟩
  intro k hk hT
  have hsel := closestIndex_at_slot target n k hn hk hT
  rw [h1] at hsel
  exact_mod_cast hsel

/-- Witness for C6 at ten slots and camera angle π/2. -/
theorem c6_witness :
    ∃ r : ℕ, closestIndex (1/2) 10 = (r : ℤ) ∧ r < 10 ∧
      (∀ i, i < 10 → reducedDiff (1/2) 10 r ≤ reducedDiff (1/2) 10 i) ∧
      (∀ i, i < r → reducedDiff (1/2) 10 r < reducedDiff (1/2) 10 i) ∧
      (∀ k, k < 10 → (1/2 : ℚ) = slotTheta 10 k → r = k) :=
  c6_selector_correct (1/2) 10 (by norm_num) (by norm_num) (by norm_num)

/-- C7: category assignment is a pure function of the index — indices below
`⌊0.15·N⌋` are `core`; a non-core index is an `ornament` exactly when it is a
multiple of 30, a `ribbon` exactly when it is a non-multiple of 30 that is a
multiple of 6, and `structure` otherwise; consequently the number of `core`
indices among `0, …, N-1` is exactly `⌊0.15·N⌋`, the same on every
regeneration. -/
theorem c7_category_assignment (count i : ℕ) :
    (i < coreCount count → particleType count i = .core) ∧
    (coreCount count ≤ i →
      (particleType count i = .ornament ↔ i % 30 = 0) ∧
      (particleType count i = .ribbon ↔ (i % 30 ≠ 0 ∧ i % 6 = 0)) ∧
      (particleType count i = .struct ↔ (i % 30 ≠ 0 ∧ i % 6 ≠ 0))) ∧
    ((List.range count).filter (fun j => particleType count j = .core)).length
      = coreCount count := by
  refine ⟨?_, ?_, ?_⟩
  · intro h
    unfold particleType
    rw [if_pos h]
  · intro h
    have hnc : ¬ i < coreCount count := by omega
    unfold particleType
    rw [if_neg hnc]
    refine ⟨?_, ?_, ?_⟩
    · by_cases h30 : i % 30 = 0
      · simp [h30]
      · by_cases h6 : i % 6 = 0 <;> simp [h30, h6]
    · by_cases h30 : i % 30 = 0
      · simp [h30]
      · by_cases h6 : i % 6 = 0 <;> simp [h30, h6]
    · by_cases h30 : i % 30 = 0
      · simp [h30]
      · by_cases h6 : i % 6 = 0 <;> simp [h30, h6]
  · have hle : coreCount count ≤ count := by
      unfold coreCount
      have h1 : ((count : ℚ) * (15/100)) ≤ ((count : ℚ)) := by
        nlinarith [Nat.cast_nonneg (α := ℚ) count]
      have h2 : ⌊((count : ℚ) * (15/100))⌋ ≤ ⌊((count : ℚ))⌋ :=
        Int.floor_le_floor h1
      rw [Int.floor_natCast] at h2
      omega
    have hsame : ∀ j, (decide (particleType count j = .core))
        = (decide (j < coreCount count)) := by
      intro j
      by_cases hj : j < coreCount count
      · simp [particleType, hj]
      · unfold particleType
        rw [if_neg hj]
        by_cases h30 : j % 30 = 0
        · simp [h30, hj]
        · by_cases h6 : j % 6 = 0 <;> simp [h30, h6, hj]
    have hcongr : (List.range count).filter
          (fun j => particleType count j = .core)
        = (List.range count).filter (fun j => decide (j < coreCount count)) := by
      apply List.filter_congr
      intro a _
      exact hsame a
    rw [hcongr, filter_range_lt_length _ _ hle]

/-- Witness for C7 at `count = 100`, `i = 0`. -/
theorem c7_witness :
    ((List.range 100).filter (fun j => particleType 100 j = .core)).length
      = coreCount 100 :=
  (c7_category_assignment 100 0).2.2

/-- C8: for every random stream, the rejection sampler terminates within its
bounded budget — the result either satisfies the heart inequality or is the
origin fallback, and the outcome depends only on the draws of the at most 100
attempts (indices below 300 of the stream). -/
theorem c8_heart_sampler_total (rand : ℕ → ℚ) :
    (heartFn (heartReject rand).1 (heartReject rand).2.1
        (heartReject rand).2.2 < 0 ∨
      heartReject rand = (0, 0, 0)) ∧
    (∀ rand2 : ℕ → ℚ, (∀ k, k < 300 → rand k = rand2 k) →
      heartReject rand = heartReject rand2) := by
  constructor
  · exact heartRejectAux_spec rand 0 100
  · intro rand2 h
    exact heartRejectAux_congr rand rand2 0 100 (fun k hk => h k (by omega))

/-- Witness for C8 at a concrete stream. -/
theorem c8_witness :
    heartFn (heartReject (fun _ => 3/5)).1 (heartReject (fun _ => 3/5)).2.1
        (heartReject (fun _ => 3/5)).2.2 < 0 ∨
      heartReject (fun _ => 3/5) = (0, 0, 0) :=
  (c8_heart_sampler_total (fun _ => 3/5)).1

/-- C9 counterexample: losing the hand clears only the stored palm position —
from tracker state `(some (0,0), 5)` the no-hand callback leaves
`lastAnalysisTime = 5`, not its reset value `0`, so the claim's "resets last
palm position/timestamp" is false for the timestamp. -/
theorem c9_counterexample :
    onResults ⟨some (0, 0), 5⟩ none 7
      = (Gesture.None, none, (⟨none, 5⟩ : TrackerState)) ∧
    ¬ (onResults ⟨some (0, 0), 5⟩ none 7).2.2.lastAnalysisTime = 0 := by
  constructor
  · rfl
  · show ¬ (5 : ℚ) = 0
    norm_num

/-- C9 (amended): a no-hand callback emits `None` with no rotation payload
and clears the stored palm position (the stored timestamp is left in place
but is unused without a stored position); consequently the first sample after
re-acquisition computes speed 0, so its label decision runs with the
moving-fast flag off and cannot be suppressed by the velocity gate.  Absence
is handled as a normal input, not an error. -/
theorem c9_amended (st : TrackerState) (now : ℚ) :
    onResults st none now
      = (Gesture.None, none, (⟨none, st.lastAnalysisTime⟩ : TrackerState)) ∧
    (∀ (lm : Landmarks) (t : ℚ),
      speedSq ⟨none, st.lastAnalysisTime⟩ (lm 9).x (lm 9).y t = 0) ∧
    (∀ (lm : Landmarks) (t : ℚ),
      (analyzeGesture ⟨none, st.lastAnalysisTime⟩ lm t).1
        = decideLabel (pinchDistanceSq lm) false (fingersOpenCount lm)) := by
  refine ⟨rfl, fun lm t => rfl, fun lm t => ?_⟩
  have hval : (analyzeGesture ⟨none, st.lastAnalysisTime⟩ lm t).1
      = decideLabel (pinchDistanceSq lm)
          (decide (speedSq ⟨none, st.lastAnalysisTime⟩ (lm 9).x (lm 9).y t > 1))
          (fingersOpenCount lm) := rfl
  rw [hval]
  have hs : speedSq ⟨none, st.lastAnalysisTime⟩ (lm 9).x (lm 9).y t = 0 := rfl
  rw [hs]
  norm_num

/-- C10: although `TreeState` declares `FOCUS`, no operation assigns it —
every state reachable from the initial `GATHERED` state through any sequence
of gesture events, manual toggles, photo clicks, photo additions and
removals, and gesture-enable toggles has `treeState` equal to `GATHERED` or
`SCATTERED`. -/
theorem c10_no_FOCUS_reachable :
    ∀ evs : List Event,
      (run evs).treeState = .GATHERED ∨ (run evs).treeState = .SCATTERED := by
  intro evs
  have key : ∀ (l : List Event) (s : AppState),
      (s.treeState = .GATHERED ∨ s.treeState = .SCATTERED) →
      ((l.foldl step s).treeState = .GATHERED ∨
        (l.foldl step s).treeState = .SCATTERED) := by
    intro l
    induction l with
    | nil => intro s h; exact h
    | cons e tl ih => intro s h; exact ih (step s e) (step_preserves_GS s e h)
  exact key evs initialState (Or.inl rfl)

end MerryTree
